import Mathlib

/-!
Verification of the tempo practice calculator engine
(src/tempo-calculator.js).

The engine is a pure numeric computation: validation of six inputs,
an exact total obtained by Kahan-compensated summation of the per-step
times, a closed-form rational S-P approximation of the same total, and
a signed relative error rate.  We embed the numbers as rationals and
the thrown validation errors as an `Except` value, following the source
line by line.
-/

namespace TempoCalc

/-- The six inputs destructured from `params` at the top of
`calculateTempoPracticeTime` (source lines 58-59). -/
structure Params where
  a : ℚ
  b : ℚ
  s : ℚ
  B : ℚ
  R : ℚ
  N : ℚ
deriving DecidableEq, Repr

/-- The four validation failures thrown at source lines 62-73, tagged by
the check that raised them. -/
inductive ValidationError where
  | nonPositiveStep
  | nonPositiveTempo
  | invalidTempoRange
  | nonPositiveCount
deriving DecidableEq, Repr

/-- One iteration of the loop body of `kahanSum` (source lines 36-39):
the state is the pair (sum, compensation); the new value has the
compensation subtracted before adding, and the compensation is recomputed
as the residual lost in that addition. -/
def kahanStep (acc : ℚ × ℚ) (x : ℚ) : ℚ × ℚ :=
  let y := x - acc.2
  let t := acc.1 + y
  (t, (t - acc.1) - y)

/-- Kahan compensated summation, `kahanSum` at source lines 31-43:
fold `kahanStep` over the list starting from sum 0, compensation 0,
and return the accumulated sum. -/
def kahanSum (numbers : List ℚ) : ℚ :=
  (numbers.foldl kahanStep ((0 : ℚ), (0 : ℚ))).1

/-- `K = B * R`, source line 76. -/
def K (p : Params) : ℚ := p.B * p.R

/-- `n = Math.floor((b - a) / s)`, source line 79. -/
def n (p : Params) : ℤ := Int.floor ((p.b - p.a) / p.s)

/-- `bPrime = a + n * s`, source line 82. -/
def bPrime (p : Params) : ℚ := p.a + (n p : ℚ) * p.s

/-- `C = 60 * K`, source line 85. -/
def C (p : Params) : ℚ := 60 * K p

/-- The array `stepTimes` built by the loop at source lines 91-96:
`C / (a + s * k)` for `k = 0, 1, ..., n` (the loop body runs for every
integer `k` with `0 <= k <= n`, hence `(n + 1).toNat` iterations). -/
def stepTimes (p : Params) : List ℚ :=
  (List.range (n p + 1).toNat).map (fun (k : ℕ) => C p / (p.a + p.s * (k : ℚ)))

/-- `sumExact = kahanSum(stepTimes)`, source line 99. -/
def sumExact (p : Params) : ℚ := kahanSum (stepTimes p)

/-- `totalExact = sumExact * N`, source line 100. -/
def totalExact (p : Params) : ℚ := sumExact p * p.N

/-- `S = a + bPrime`, source line 106. -/
def S (p : Params) : ℚ := p.a + bPrime p

/-- `P = a * bPrime`, source line 107. -/
def P (p : Params) : ℚ := p.a * bPrime p

/-- `termIntegral = (4 * n * S) / (S * S + 4 * P)`, source line 111. -/
def termIntegral (p : Params) : ℚ :=
  (4 * (n p : ℚ) * S p) / (S p * S p + 4 * P p)

/-- `termCorrection = S / (2 * P)`, source line 115. -/
def termCorrection (p : Params) : ℚ := S p / (2 * P p)

/-- `sumApprox = C * (termIntegral + termCorrection)`, source line 118. -/
def sumApprox (p : Params) : ℚ := C p * (termIntegral p + termCorrection p)

/-- `totalApprox = sumApprox * N`, source line 119. -/
def totalApprox (p : Params) : ℚ := sumApprox p * p.N

/-- `errorRate = ((totalApprox - totalExact) / totalExact) * 100`,
source line 122. -/
def errorRate (p : Params) : ℚ :=
  ((totalApprox p - totalExact p) / totalExact p) * 100

/-- The record returned at source lines 124-137 (results and metadata
flattened into one record). -/
structure CalcResult where
  exactSeconds : ℚ
  approxSeconds : ℚ
  errorRatePercent : ℚ
  nSteps : ℤ
  actualEndTempo : ℚ
  totalBeatsPerStep : ℚ
  timeConstantC : ℚ
  inputParams : Params
deriving DecidableEq, Repr

/-- The successful branch of `calculateTempoPracticeTime`
(source lines 76-137). -/
def computeResult (p : Params) : CalcResult :=
  { exactSeconds := totalExact p
    approxSeconds := totalApprox p
    errorRatePercent := errorRate p
    nSteps := n p
    actualEndTempo := bPrime p
    totalBeatsPerStep := K p
    timeConstantC := C p
    inputParams := p }

/-- `calculateTempoPracticeTime`, source lines 58-138: the four
validation checks in source order (lines 62-73), then the computation.
A `throw` is modelled as `Except.error`. -/
def calculateTempoPracticeTime (p : Params) :
    Except ValidationError CalcResult :=
  if p.s ≤ 0 then .error .nonPositiveStep
  else if p.a ≤ 0 ∨ p.b ≤ 0 then .error .nonPositiveTempo
  else if p.a ≥ p.b then .error .invalidTempoRange
  else if p.B ≤ 0 ∨ p.R ≤ 0 ∨ p.N ≤ 0 then .error .nonPositiveCount
  else .ok (computeResult p)

/-- A valid input in the sense of the spec: positive step, positive
tempos with `a < b`, positive counts. -/
def ValidParams (p : Params) : Prop :=
  0 < p.a ∧ 0 < p.b ∧ p.a < p.b ∧ 0 < p.s ∧ 0 < p.B ∧ 0 < p.R ∧ 0 < p.N

instance (p : Params) : Decidable (ValidParams p) := by
  unfold ValidParams; infer_instance

/-- The spec's concrete scenario: a=60, b=120, s=10, B=4, R=2, N=3. -/
def sampleParams : Params :=
  { a := 60, b := 120, s := 10, B := 4, R := 2, N := 3 }

/-- An input with a non-integer beat count `B = 1.5` and every other
field valid. -/
def halfBeatParams : Params :=
  { a := 60, b := 120, s := 10, B := 3 / 2, R := 2, N := 3 }

/-- An input violating both the step check (s = 0) and the range check
(a > b). -/
def badStepParams : Params :=
  { a := 120, b := 100, s := 0, B := 4, R := 2, N := 3 }

/-- An input with a zero beat count, every other field valid. -/
def zeroBeatParams : Params :=
  { a := 60, b := 120, s := 10, B := 0, R := 2, N := 3 }

/-- The spec's boundary scenario a=100, b=101, s=5: the step size
overshoots the target in one step, so n = 0. -/
def overshootParams : Params :=
  { a := 100, b := 101, s := 5, B := 1, R := 1, N := 1 }

/-!  Helper lemmas about the embedded computation. -/

/-- Starting from a zero compensation, one Kahan step adds the value
exactly (in exact rational arithmetic the residual vanishes). -/
theorem kahanStep_zero_comp (t x : ℚ) : kahanStep (t, 0) x = (t + x, 0) := by
  unfold kahanStep
  rw [Prod.mk.injEq]
  constructor <;> ring

/-- Folding `kahanStep` from compensation 0 accumulates the exact sum. -/
theorem foldl_kahanStep (l : List ℚ) :
    ∀ t : ℚ, l.foldl kahanStep (t, 0) = (t + l.sum, 0) := by
  induction l with
  | nil => intro t; simp
  | cons x xs ih =>
      intro t
      rw [List.foldl_cons, kahanStep_zero_comp, ih, List.sum_cons, Prod.mk.injEq]
      exact ⟨by ring, rfl⟩

/-- In exact arithmetic, compensated summation computes the list sum. -/
theorem kahanSum_eq_sum (l : List ℚ) : kahanSum l = l.sum := by
  rw [kahanSum, foldl_kahanStep]
  simp

/-- On a valid input, all four checks pass and the engine returns the
computed result. -/
theorem calc_eq_ok (p : Params) (hv : ValidParams p) :
    calculateTempoPracticeTime p = .ok (computeResult p) := by
  obtain ⟨ha, hb, hab, hs, hB, hR, hN⟩ := hv
  rw [calculateTempoPracticeTime, if_neg (not_le.mpr hs),
    if_neg (by push_neg; exact ⟨ha, hb⟩),
    if_neg (not_le.mpr hab),
    if_neg (by push_neg; exact ⟨hB, hR, hN⟩)]

/-- The only record a valid input can produce is `computeResult`. -/
theorem ok_result (p : Params) (r : CalcResult) (hv : ValidParams p)
    (h : calculateTempoPracticeTime p = .ok r) : r = computeResult p := by
  rw [calc_eq_ok p hv] at h
  exact (Except.ok.inj h).symm

/-- The step count is nonnegative on valid inputs. -/
theorem n_nonneg (p : Params) (hv : ValidParams p) : 0 ≤ n p := by
  obtain ⟨_, _, hab, hs, _, _, _⟩ := hv
  exact Int.le_floor.mpr (by
    push_cast
    exact le_of_lt (div_pos (sub_pos.mpr hab) hs))

/-- `n * s` does not exceed the requested tempo span. -/
theorem n_mul_s_le (p : Params) (hv : ValidParams p) :
    (n p : ℚ) * p.s ≤ p.b - p.a := by
  obtain ⟨_, _, _, hs, _, _, _⟩ := hv
  have h1 : (n p : ℚ) ≤ (p.b - p.a) / p.s := Int.floor_le _
  calc (n p : ℚ) * p.s ≤ (p.b - p.a) / p.s * p.s :=
        mul_le_mul_of_nonneg_right h1 hs.le
    _ = p.b - p.a := div_mul_cancel₀ _ (ne_of_gt hs)

/-- The actual end tempo is at least the start tempo. -/
theorem a_le_bPrime (p : Params) (hv : ValidParams p) : p.a ≤ bPrime p := by
  have hns : (0 : ℚ) ≤ (n p : ℚ) * p.s :=
    mul_nonneg (by exact_mod_cast n_nonneg p hv) hv.2.2.2.1.le
  rw [bPrime]
  linarith

/-- The actual end tempo does not exceed the target tempo. -/
theorem bPrime_le_b (p : Params) (hv : ValidParams p) : bPrime p ≤ p.b := by
  have := n_mul_s_le p hv
  rw [bPrime]
  linarith

/-- The actual end tempo is positive on valid inputs. -/
theorem bPrime_pos (p : Params) (hv : ValidParams p) : 0 < bPrime p :=
  lt_of_lt_of_le hv.1 (a_le_bPrime p hv)

/-- The time constant C = 60·B·R is positive on valid inputs. -/
theorem C_pos (p : Params) (hv : ValidParams p) : 0 < C p := by
  rw [C, K]
  have hB := hv.2.2.2.2.1
  have hR := hv.2.2.2.2.2.1
  positivity

/-- Every tempo reached in the loop is positive on valid inputs. -/
theorem tempo_pos (p : Params) (hv : ValidParams p) (k : ℕ) :
    0 < p.a + p.s * (k : ℚ) := by
  have : (0 : ℚ) ≤ p.s * (k : ℚ) := mul_nonneg hv.2.2.2.1.le (Nat.cast_nonneg k)
  linarith [hv.1]

/-- The exact total is positive on valid inputs. -/
theorem totalExact_pos (p : Params) (hv : ValidParams p) : 0 < totalExact p := by
  rw [totalExact, sumExact, kahanSum_eq_sum]
  refine mul_pos (List.sum_pos _ ?_ ?_) hv.2.2.2.2.2.2
  · intro x hx
    rw [stepTimes] at hx
    obtain ⟨k, _, rfl⟩ := List.mem_map.mp hx
    exact div_pos (C_pos p hv) (tempo_pos p hv k)
  · have hn := n_nonneg p hv
    rw [stepTimes]
    simp only [ne_eq, List.map_eq_nil_iff, List.range_eq_nil]
    omega

/-!  Claim theorems. -/

/-- Claim C1: for every valid input, `exactSeconds` equals N times the
Kahan-compensated sum of the n+1 values C/(a + s·k) for k = 0..n, with
C = 60·B·R and n = floor((b−a)/s); the sum is computed by the
compensated `kahanSum` (subtract the compensation from each new value,
add, recompute the compensation as the residual of that addition), not
by naive accumulation. -/
theorem exactSeconds_eq_scaled_kahanSum (p : Params) (r : CalcResult)
    (hv : ValidParams p) (h : calculateTempoPracticeTime p = .ok r) :
    n p = Int.floor ((p.b - p.a) / p.s) ∧
    r.exactSeconds =
      p.N * kahanSum ((List.range ((n p).toNat + 1)).map
        (fun (k : ℕ) => (60 * (p.B * p.R)) / (p.a + p.s * (k : ℚ)))) := by
  have hr := ok_result p r hv h
  subst hr
  refine ⟨rfl, ?_⟩
  have htn : (n p + 1).toNat = (n p).toNat + 1 := by
    have := n_nonneg p hv
    omega
  show totalExact p = _
  rw [totalExact, sumExact, stepTimes, htn, mul_comm]
  simp only [C, K]

/-- Claim C1 witness: the sample scenario a=60, b=120, s=10, B=4, R=2,
N=3 instantiates the theorem. -/
theorem exactSeconds_eq_scaled_kahanSum_witness :
    (computeResult sampleParams).exactSeconds =
      sampleParams.N * kahanSum ((List.range ((n sampleParams).toNat + 1)).map
        (fun (k : ℕ) =>
          (60 * (sampleParams.B * sampleParams.R)) /
            (sampleParams.a + sampleParams.s * (k : ℚ)))) :=
  (exactSeconds_eq_scaled_kahanSum sampleParams (computeResult sampleParams)
    (by norm_num [ValidParams, sampleParams])
    (calc_eq_ok sampleParams (by norm_num [ValidParams, sampleParams]))).2

/-- Claim C2: for every valid input, `approxSeconds` equals
C · (mainTerm + correctionTerm) · N where S = a + b′, P = a·b′,
mainTerm = 4nS/(S² + 4P) and correctionTerm = S/(2P), with b′ the
actual end tempo; the formula is closed-form with no loop over n. -/
theorem approxSeconds_eq_rational_formula (p : Params) (r : CalcResult)
    (hv : ValidParams p) (h : calculateTempoPracticeTime p = .ok r) :
    r.approxSeconds =
      60 * (p.B * p.R) *
        ((4 * (n p : ℚ) * (p.a + bPrime p)) /
            ((p.a + bPrime p) * (p.a + bPrime p) + 4 * (p.a * bPrime p)) +
          (p.a + bPrime p) / (2 * (p.a * bPrime p))) * p.N := by
  have hr := ok_result p r hv h
  subst hr
  show totalApprox p = _
  simp only [totalApprox, sumApprox, termIntegral, termCorrection, S, P, C, K]

/-- Claim C2 witness: the sample scenario instantiates the formula. -/
theorem approxSeconds_eq_rational_formula_witness :
    (computeResult sampleParams).approxSeconds =
      60 * (sampleParams.B * sampleParams.R) *
        ((4 * (n sampleParams : ℚ) * (sampleParams.a + bPrime sampleParams)) /
            ((sampleParams.a + bPrime sampleParams) *
                (sampleParams.a + bPrime sampleParams) +
              4 * (sampleParams.a * bPrime sampleParams)) +
          (sampleParams.a + bPrime sampleParams) /
            (2 * (sampleParams.a * bPrime sampleParams))) * sampleParams.N :=
  approxSeconds_eq_rational_formula sampleParams (computeResult sampleParams)
    (by norm_num [ValidParams, sampleParams])
    (calc_eq_ok sampleParams (by norm_num [ValidParams, sampleParams]))

/-- Claim C3: for every valid input, the result's step count equals
floor((b−a)/s) and is nonnegative, and the actual end tempo equals
a + n·s exactly and lies in [a, b + s). -/
theorem stepCount_floor_and_endTempo_bounds (p : Params) (r : CalcResult)
    (hv : ValidParams p) (h : calculateTempoPracticeTime p = .ok r) :
    r.nSteps = Int.floor ((p.b - p.a) / p.s) ∧ 0 ≤ r.nSteps ∧
    r.actualEndTempo = p.a + (r.nSteps : ℚ) * p.s ∧
    p.a ≤ r.actualEndTempo ∧ r.actualEndTempo < p.b + p.s := by
  have hr := ok_result p r hv h
  subst hr
  refine ⟨rfl, n_nonneg p hv, rfl, a_le_bPrime p hv, ?_⟩
  have h1 := bPrime_le_b p hv
  have hs := hv.2.2.2.1
  show bPrime p < p.b + p.s
  linarith

/-- Claim C3 witness: the sample scenario instantiates the bounds. -/
theorem stepCount_floor_and_endTempo_bounds_witness :
    (computeResult sampleParams).nSteps =
      Int.floor ((sampleParams.b - sampleParams.a) / sampleParams.s) ∧
    0 ≤ (computeResult sampleParams).nSteps ∧
    (computeResult sampleParams).actualEndTempo =
      sampleParams.a + ((computeResult sampleParams).nSteps : ℚ) * sampleParams.s ∧
    sampleParams.a ≤ (computeResult sampleParams).actualEndTempo ∧
    (computeResult sampleParams).actualEndTempo < sampleParams.b + sampleParams.s :=
  stepCount_floor_and_endTempo_bounds sampleParams (computeResult sampleParams)
    (by norm_num [ValidParams, sampleParams])
    (calc_eq_ok sampleParams (by norm_num [ValidParams, sampleParams]))

/-- Claim C4: for every valid input, the actual end tempo b′ = a + n·s
satisfies b′ ≤ b, with equality exactly when b − a is an integer
multiple of s. -/
theorem actualEndTempo_le_target_iff_multiple (p : Params) (r : CalcResult)
    (hv : ValidParams p) (h : calculateTempoPracticeTime p = .ok r) :
    r.actualEndTempo ≤ p.b ∧
    (r.actualEndTempo = p.b ↔ ∃ m : ℤ, p.b - p.a = (m : ℚ) * p.s) := by
  have hr := ok_result p r hv h
  subst hr
  refine ⟨bPrime_le_b p hv, ?_, ?_⟩
  · intro he
    refine ⟨n p, ?_⟩
    have : bPrime p = p.b := he
    rw [bPrime] at this
    linarith
  · rintro ⟨m, hm⟩
    have hs := hv.2.2.2.1
    have hq : (p.b - p.a) / p.s = (m : ℚ) := by
      rw [hm]
      field_simp
    have hnm : n p = m := by
      show Int.floor ((p.b - p.a) / p.s) = m
      rw [hq]
      exact Int.floor_intCast m
    show bPrime p = p.b
    rw [bPrime, hnm, ← hm]
    ring

/-- Claim C4 witness: in the sample scenario b − a = 60 is an exact
multiple of s = 10 and the actual end tempo reaches b = 120. -/
theorem actualEndTempo_le_target_iff_multiple_witness :
    (computeResult sampleParams).actualEndTempo ≤ sampleParams.b ∧
    ((computeResult sampleParams).actualEndTempo = sampleParams.b ↔
      ∃ m : ℤ, sampleParams.b - sampleParams.a = (m : ℚ) * sampleParams.s) :=
  actualEndTempo_le_target_iff_multiple sampleParams (computeResult sampleParams)
    (by norm_num [ValidParams, sampleParams])
    (calc_eq_ok sampleParams (by norm_num [ValidParams, sampleParams]))

/-- Claim C5: for every input passing validation the computation stage
never fails: every tempo a + s·k reached by the loop is positive, P and
S² + 4P are positive, exactSeconds is nonzero, and when n = 0 the exact
sum has exactly one term so exactSeconds = C/a · N (so the n = 0
approximation divides by nothing degenerate either). -/
theorem computation_total_on_valid_inputs (p : Params) (r : CalcResult)
    (hv : ValidParams p) (h : calculateTempoPracticeTime p = .ok r) :
    (∀ k : ℕ, (k : ℤ) ≤ n p → 0 < p.a + p.s * (k : ℚ)) ∧
    0 < P p ∧ 0 < S p * S p + 4 * P p ∧
    r.exactSeconds ≠ 0 ∧
    (n p = 0 → r.exactSeconds = 60 * (p.B * p.R) / p.a * p.N) := by
  have hr := ok_result p r hv h
  subst hr
  have hP : 0 < P p := by
    rw [P]
    exact mul_pos hv.1 (bPrime_pos p hv)
  refine ⟨fun k _ => tempo_pos p hv k, hP, ?_, ?_, ?_⟩
  · have hS : 0 < S p := by
      rw [S]
      linarith [hv.1, bPrime_pos p hv]
    nlinarith
  · exact ne_of_gt (totalExact_pos p hv)
  · intro hn
    have h1 : stepTimes p = [C p / p.a] := by
      rw [stepTimes, hn, show ((0 : ℤ) + 1).toNat = 1 from rfl,
        show List.range 1 = [0] from rfl]
      norm_num
    show totalExact p = _
    rw [totalExact, sumExact, h1, kahanSum_eq_sum, List.sum_singleton]
    simp only [C, K]

/-- Claim C5 witness: the overshoot scenario a=100, b=101, s=5 has
n = 0 and a single-term exact sum. -/
theorem computation_total_on_valid_inputs_witness :
    (n overshootParams = 0 → (computeResult overshootParams).exactSeconds =
      60 * (overshootParams.B * overshootParams.R) / overshootParams.a *
        overshootParams.N) ∧
    (computeResult overshootParams).exactSeconds ≠ 0 :=
  ⟨(computation_total_on_valid_inputs overshootParams
      (computeResult overshootParams)
      (by norm_num [ValidParams, overshootParams])
      (calc_eq_ok overshootParams
        (by norm_num [ValidParams, overshootParams]))).2.2.2.2,
   (computation_total_on_valid_inputs overshootParams
      (computeResult overshootParams)
      (by norm_num [ValidParams, overshootParams])
      (calc_eq_ok overshootParams
        (by norm_num [ValidParams, overshootParams]))).2.2.2.1⟩

/-- Claim C7: the four validation checks run in the fixed source order
(step, tempos, range, counts); the first violated check determines the
error, and a computed record is produced exactly when every check
passes, so failures yield no partial result. -/
theorem validation_check_order (p : Params) :
    (p.s ≤ 0 → calculateTempoPracticeTime p = .error .nonPositiveStep) ∧
    (0 < p.s → (p.a ≤ 0 ∨ p.b ≤ 0) →
      calculateTempoPracticeTime p = .error .nonPositiveTempo) ∧
    (0 < p.s → 0 < p.a → 0 < p.b → p.b ≤ p.a →
      calculateTempoPracticeTime p = .error .invalidTempoRange) ∧
    (0 < p.s → 0 < p.a → 0 < p.b → p.a < p.b →
      (p.B ≤ 0 ∨ p.R ≤ 0 ∨ p.N ≤ 0) →
      calculateTempoPracticeTime p = .error .nonPositiveCount) ∧
    ((∃ res, calculateTempoPracticeTime p = .ok res) ↔ ValidParams p) := by
  refine ⟨?_, ?_, ?_, ?_, ?_⟩
  · intro h1
    rw [calculateTempoPracticeTime, if_pos h1]
  · intro h1 h2
    rw [calculateTempoPracticeTime, if_neg (not_le.mpr h1), if_pos h2]
  · intro h1 ha hb h3
    rw [calculateTempoPracticeTime, if_neg (not_le.mpr h1),
      if_neg (by push_neg; exact ⟨ha, hb⟩), if_pos h3]
  · intro h1 ha hb h3 h4
    rw [calculateTempoPracticeTime, if_neg (not_le.mpr h1),
      if_neg (by push_neg; exact ⟨ha, hb⟩), if_neg (not_le.mpr h3), if_pos h4]
  · constructor
    · rintro ⟨res, hres⟩
      rw [calculateTempoPracticeTime] at hres
      split_ifs at hres with h1 h2 h3 h4
      push_neg at h1 h2 h3 h4
      exact ⟨h2.1, h2.2, lt_of_not_le (by simpa using h3), h1, h4.1, h4.2.1, h4.2.2⟩
    · intro hv
      exact ⟨computeResult p, calc_eq_ok p hv⟩

/-- Claim C7 witness: an input violating both the step check (s = 0)
and the range check (a > b) reports the first check's error,
NonPositiveStep. -/
theorem validation_check_order_witness :
    calculateTempoPracticeTime badStepParams = .error .nonPositiveStep :=
  (validation_check_order badStepParams).1 (by norm_num [badStepParams])

/-- Claim C8: for every valid input, `errorRatePercent` equals
(approxSeconds − exactSeconds) / exactSeconds × 100 and is positive
exactly when the approximation exceeds the exact total. -/
theorem errorRate_formula_and_sign (p : Params) (r : CalcResult)
    (hv : ValidParams p) (h : calculateTempoPracticeTime p = .ok r) :
    r.errorRatePercent =
      (r.approxSeconds - r.exactSeconds) / r.exactSeconds * 100 ∧
    (0 < r.errorRatePercent ↔ r.exactSeconds < r.approxSeconds) := by
  have hr := ok_result p r hv h
  subst hr
  refine ⟨rfl, ?_⟩
  have he := totalExact_pos p hv
  show 0 < errorRate p ↔ totalExact p < totalApprox p
  rw [errorRate, div_mul_eq_mul_div, div_pos_iff]
  constructor
  · rintro (⟨h1, _⟩ | ⟨_, h2⟩)
    · nlinarith
    · linarith
  · intro hlt
    exact Or.inl ⟨by nlinarith, he⟩

/-- Claim C8 witness: the sample scenario instantiates the error-rate
formula and its sign characterisation. -/
theorem errorRate_formula_and_sign_witness :
    (computeResult sampleParams).errorRatePercent =
      ((computeResult sampleParams).approxSeconds -
        (computeResult sampleParams).exactSeconds) /
          (computeResult sampleParams).exactSeconds * 100 ∧
    (0 < (computeResult sampleParams).errorRatePercent ↔
      (computeResult sampleParams).exactSeconds <
        (computeResult sampleParams).approxSeconds) :=
  errorRate_formula_and_sign sampleParams (computeResult sampleParams)
    (by norm_num [ValidParams, sampleParams])
    (calc_eq_ok sampleParams (by norm_num [ValidParams, sampleParams]))

/-- Claim C9: the engine is a pure function of its six inputs: two
invocations with identical inputs return the same value, and any two
records they produce agree in every field. -/
theorem engine_deterministic (p₁ p₂ : Params) (hpq : p₁ = p₂) :
    calculateTempoPracticeTime p₁ = calculateTempoPracticeTime p₂ ∧
    ∀ r₁ r₂ : CalcResult, calculateTempoPracticeTime p₁ = .ok r₁ →
      calculateTempoPracticeTime p₂ = .ok r₂ →
      r₁.exactSeconds = r₂.exactSeconds ∧
      r₁.approxSeconds = r₂.approxSeconds ∧
      r₁.errorRatePercent = r₂.errorRatePercent ∧
      r₁.nSteps = r₂.nSteps ∧
      r₁.actualEndTempo = r₂.actualEndTempo ∧
      r₁.totalBeatsPerStep = r₂.totalBeatsPerStep ∧
      r₁.timeConstantC = r₂.timeConstantC ∧
      r₁.inputParams = r₂.inputParams ∧
      r₁ = r₂ := by
  subst hpq
  refine ⟨rfl, fun r₁ r₂ h1 h2 => ?_⟩
  have hr : r₁ = r₂ := Except.ok.inj (h1.symm.trans h2)
  subst hr
  exact ⟨rfl, rfl, rfl, rfl, rfl, rfl, rfl, rfl, rfl⟩

/-- Claim C9 witness: two invocations on the sample scenario produce
records that are equal in every field. -/
theorem engine_deterministic_witness :
    computeResult sampleParams = computeResult sampleParams ∧
    (computeResult sampleParams).exactSeconds =
      (computeResult sampleParams).exactSeconds :=
  ⟨((engine_deterministic sampleParams sampleParams rfl).2
      (computeResult sampleParams) (computeResult sampleParams)
      (calc_eq_ok sampleParams (by norm_num [ValidParams, sampleParams]))
      (calc_eq_ok sampleParams
        (by norm_num [ValidParams, sampleParams]))).2.2.2.2.2.2.2.2,
   ((engine_deterministic sampleParams sampleParams rfl).2
      (computeResult sampleParams) (computeResult sampleParams)
      (calc_eq_ok sampleParams (by norm_num [ValidParams, sampleParams]))
      (calc_eq_ok sampleParams
        (by norm_num [ValidParams, sampleParams]))).1⟩

/-- Claim C10: for every valid input with n = 0 the approximation is
exact: the main term vanishes, the correction term collapses to
2a/(2a²) = 1/a, approxSeconds = C/a · N = exactSeconds, and the error
rate is zero. -/
theorem n_zero_approx_exact_agree (p : Params) (r : CalcResult)
    (hv : ValidParams p) (h : calculateTempoPracticeTime p = .ok r)
    (hn : n p = 0) :
    termIntegral p = 0 ∧
    termCorrection p = (2 * p.a) / (2 * (p.a * p.a)) ∧
    termCorrection p = 1 / p.a ∧
    r.approxSeconds = 60 * (p.B * p.R) / p.a * p.N ∧
    r.approxSeconds = r.exactSeconds ∧
    r.errorRatePercent = 0 := by
  have hr := ok_result p r hv h
  subst hr
  have ha := hv.1
  have hbp : bPrime p = p.a := by
    rw [bPrime, hn]
    push_cast
    ring
  have hti : termIntegral p = 0 := by
    rw [termIntegral, hn]
    norm_num
  have htc2 : termCorrection p = (2 * p.a) / (2 * (p.a * p.a)) := by
    rw [termCorrection, S, P, hbp]
    ring_nf
  have htc : termCorrection p = 1 / p.a := by
    rw [htc2]
    field_simp
    ring
  have hap : totalApprox p = 60 * (p.B * p.R) / p.a * p.N := by
    rw [totalApprox, sumApprox, hti, htc]
    simp only [C, K]
    field_simp
  have hex : totalExact p = 60 * (p.B * p.R) / p.a * p.N := by
    have h1 : stepTimes p = [C p / p.a] := by
      rw [stepTimes, hn, show ((0 : ℤ) + 1).toNat = 1 from rfl,
        show List.range 1 = [0] from rfl]
      norm_num
    rw [totalExact, sumExact, h1, kahanSum_eq_sum, List.sum_singleton]
    simp only [C, K]
  have hae : totalApprox p = totalExact p := by rw [hap, hex]
  refine ⟨hti, htc2, htc, hap, hae, ?_⟩
  show errorRate p = 0
  rw [errorRate, hae, sub_self, zero_div, zero_mul]

/-- Claim C10 witness: the overshoot scenario a=100, b=101, s=5 has
n = 0, where approximation and exact total agree and the error rate
vanishes. -/
theorem n_zero_approx_exact_agree_witness :
    (computeResult overshootParams).approxSeconds =
      (computeResult overshootParams).exactSeconds ∧
    (computeResult overshootParams).errorRatePercent = 0 :=
  ⟨(n_zero_approx_exact_agree overshootParams (computeResult overshootParams)
      (by norm_num [ValidParams, overshootParams])
      (calc_eq_ok overshootParams (by norm_num [ValidParams, overshootParams]))
      (by norm_num [n, overshootParams])).2.2.2.2.1,
   (n_zero_approx_exact_agree overshootParams (computeResult overshootParams)
      (by norm_num [ValidParams, overshootParams])
      (calc_eq_ok overshootParams (by norm_num [ValidParams, overshootParams]))
      (by norm_num [n, overshootParams])).2.2.2.2.2⟩

/-- Claim C6 counterexample: the input a=60, b=120, s=10, B=1.5, R=2,
N=3 has a non-integer beat count, yet the engine does not fail with
NonPositiveCount — the count check at source line 71 only tests
`B <= 0 || R <= 0 || N <= 0` and never tests integrality, so this
input produces a computed result. -/
theorem nonInteger_count_accepted :
    calculateTempoPracticeTime halfBeatParams ≠
      .error .nonPositiveCount ∧
    calculateTempoPracticeTime halfBeatParams =
      .ok (computeResult halfBeatParams) := by
  have hok := calc_eq_ok halfBeatParams
    (by norm_num [ValidParams, halfBeatParams])
  refine ⟨?_, hok⟩
  rw [hok]
  simp

/-- Claim C6 amended: validation rejects any input where
beatsPerPhrase, repetitions or sets is ≤ 0 (after the earlier checks
pass) with the NonPositiveCount error; integrality is not checked by
the engine. -/
theorem nonpositive_count_rejected (p : Params)
    (hs : 0 < p.s) (ha : 0 < p.a) (hb : 0 < p.b) (hab : p.a < p.b)
    (hc : p.B ≤ 0 ∨ p.R ≤ 0 ∨ p.N ≤ 0) :
    calculateTempoPracticeTime p = .error .nonPositiveCount := by
  rw [calculateTempoPracticeTime, if_neg (not_le.mpr hs),
    if_neg (by push_neg; exact ⟨ha, hb⟩), if_neg (not_le.mpr hab),
    if_pos hc]

/-- Claim C6 amended witness: B = 0 with every other field valid is
rejected with NonPositiveCount. -/
theorem nonpositive_count_rejected_witness :
    calculateTempoPracticeTime zeroBeatParams =
      .error .nonPositiveCount :=
  nonpositive_count_rejected zeroBeatParams
    (by norm_num [zeroBeatParams]) (by norm_num [zeroBeatParams])
    (by norm_num [zeroBeatParams]) (by norm_num [zeroBeatParams])
    (Or.inl (by norm_num [zeroBeatParams]))

end TempoCalc
